import Mathlib

/-!
Shallow embedding of the thumbnail-cache, worker-pipeline and viewer
logic of `src/main.py` (PDF library manager), together with theorems
settling the specification claims about that code.

Conventions of the embedding:
* Python strings are Lean `String` (a structure holding `List Char`).
* Python `str(int)` of a nonnegative integer is modelled by `natChars`
  (decimal digits, most significant first).
* The float `st_mtime` rendered inside the f-string on line 91 is kept
  as an abstract string parameter `mtimeStr`; Python's rendering of a
  float never contains an underscore, which is the only fact used.
* Exceptions are modelled by `Option`: external calls that can raise
  (`fitz.open`, page rasterization, cache decoding) are passed in as
  `Option`-valued data, and a `none` takes the `except` branch of the
  source.
* Floats in the viewer (zoom factors) are modelled by rationals.
-/

set_option maxRecDepth 8000

namespace PdfLib

/-! ### Decimal rendering of a natural number (Python `str(int)`) -/

/-- Decimal digits of `n`, most significant first, modelling Python's
`str(int)` as interpolated by the f-strings of `get_cache_filename`
(src/main.py lines 91 and 96). -/
def natChars (n : Nat) : List Char :=
  if _h : n < 10 then [Nat.digitChar n]
  else natChars (n / 10) ++ [Nat.digitChar (n % 10)]
termination_by n
decreasing_by exact Nat.div_lt_self (by omega) (by omega)

/-- String form of `natChars`. -/
def natStr (n : Nat) : String := ⟨natChars n⟩

theorem digitChar_isDigit : ∀ m, m < 10 → (Nat.digitChar m).isDigit = true := by decide

theorem digitChar_inj_lt :
    ∀ a, a < 10 → ∀ b, b < 10 → Nat.digitChar a = Nat.digitChar b → a = b := by decide

theorem natChars_lt {n : Nat} (h : n < 10) : natChars n = [Nat.digitChar n] := by
  rw [natChars]
  simp [h]

theorem natChars_ge {n : Nat} (h : ¬ n < 10) :
    natChars n = natChars (n / 10) ++ [Nat.digitChar (n % 10)] := by
  rw [natChars]
  simp [h]

theorem natChars_ne_nil (n : Nat) : natChars n ≠ [] := by
  by_cases h : n < 10
  · rw [natChars_lt h]; simp
  · rw [natChars_ge h]; simp

theorem mem_natChars_isDigit (n : Nat) : ∀ c ∈ natChars n, c.isDigit = true := by
  induction n using Nat.strong_induction_on with
  | _ n ih =>
    by_cases h : n < 10
    · rw [natChars_lt h]
      intro c hc
      rw [List.mem_singleton] at hc
      subst hc
      exact digitChar_isDigit n h
    · rw [natChars_ge h]
      intro c hc
      rcases List.mem_append.1 hc with h1 | h1
      · exact ih (n / 10) (Nat.div_lt_self (by omega) (by omega)) c h1
      · rw [List.mem_singleton] at h1
        subst h1
        exact digitChar_isDigit _ (Nat.mod_lt _ (by omega))

theorem natChars_no_underscore (n : Nat) : '_' ∉ natChars n := by
  intro hmem
  have hd := mem_natChars_isDigit n _ hmem
  exact absurd hd (by decide)

theorem natChars_injective : ∀ n m : Nat, natChars n = natChars m → n = m := by
  intro n
  induction n using Nat.strong_induction_on with
  | _ n ih =>
    intro m h
    by_cases hn : n < 10 <;> by_cases hm : m < 10
    · rw [natChars_lt hn, natChars_lt hm] at h
      exact digitChar_inj_lt n hn m hm (List.cons.inj h).1
    · rw [natChars_lt hn, natChars_ge hm] at h
      have hl := congrArg List.length h
      simp only [List.length_singleton, List.length_append] at hl
      have h0 : (natChars (m / 10)).length = 0 := by omega
      exact absurd (List.length_eq_zero.mp h0) (natChars_ne_nil _)
    · rw [natChars_ge hn, natChars_lt hm] at h
      have hl := congrArg List.length h
      simp only [List.length_singleton, List.length_append] at hl
      have h0 : (natChars (n / 10)).length = 0 := by omega
      exact absurd (List.length_eq_zero.mp h0) (natChars_ne_nil _)
    · rw [natChars_ge hn, natChars_ge hm] at h
      have h2 := congrArg List.reverse h
      simp only [List.reverse_append, List.reverse_cons, List.reverse_nil,
        List.nil_append, List.singleton_append] at h2
      obtain ⟨hd, tl⟩ := List.cons.inj h2
      have hmod := digitChar_inj_lt (n % 10) (Nat.mod_lt _ (by omega))
        (m % 10) (Nat.mod_lt _ (by omega)) hd
      have hdiv := ih (n / 10) (Nat.div_lt_self (by omega) (by omega)) (m / 10)
        (List.reverse_injective tl)
      omega

/-! ### Splitting a string at its separator underscores -/

theorem split_first_sep (as : List Char) :
    ∀ (cs : List Char), '_' ∉ as → '_' ∉ cs →
    ∀ (bs ds : List Char), as ++ '_' :: bs = cs ++ '_' :: ds → as = cs ∧ bs = ds := by
  induction as with
  | nil =>
    intro cs _ hc bs ds h
    cases cs with
    | nil =>
      simp only [List.nil_append] at h
      exact ⟨rfl, (List.cons.inj h).2⟩
    | cons c cs' =>
      simp only [List.nil_append, List.cons_append] at h
      have hc' : c = '_' := ((List.cons.inj h).1).symm
      subst hc'
      exact absurd (List.mem_cons_self _ _) hc
  | cons a as' ih =>
    intro cs ha hc bs ds h
    cases cs with
    | nil =>
      simp only [List.cons_append, List.nil_append] at h
      have ha' : a = '_' := (List.cons.inj h).1
      subst ha'
      exact absurd (List.mem_cons_self _ _) ha
    | cons c cs' =>
      simp only [List.cons_append] at h
      obtain ⟨hac, h'⟩ := List.cons.inj h
      have ha' : '_' ∉ as' := fun hmem => ha (List.mem_cons_of_mem _ hmem)
      have hc' : '_' ∉ cs' := fun hmem => hc (List.mem_cons_of_mem _ hmem)
      obtain ⟨h1, h2⟩ := ih cs' ha' hc' bs ds h'
      exact ⟨by rw [hac, h1], h2⟩

theorem split_last_sep {as bs cs ds : List Char}
    (hb : '_' ∉ bs) (hd : '_' ∉ ds)
    (h : as ++ '_' :: bs = cs ++ '_' :: ds) : as = cs ∧ bs = ds := by
  have h' := congrArg List.reverse h
  simp only [List.reverse_append, List.reverse_cons, List.append_assoc,
    List.singleton_append] at h'
  have hb' : '_' ∉ bs.reverse := fun hmem => hb (List.mem_reverse.mp hmem)
  have hd' : '_' ∉ ds.reverse := fun hmem => hd (List.mem_reverse.mp hmem)
  obtain ⟨h1, h2⟩ := split_first_sep bs.reverse ds.reverse hb' hd' as.reverse cs.reverse h'
  exact ⟨List.reverse_injective h2, List.reverse_injective h1⟩

/-! ### `ThumbnailWorker.get_cache_filename` (src/main.py lines 87-104) -/

/-- Line 91: `cache_key = f"{pdf_path}_{file_stat.st_mtime}_{page_num}"`.
`mtimeStr` is the decimal rendering Python gives to the float
`st_mtime`; it never contains an underscore. -/
def cache_key (pdf_path mtimeStr : String) (page_num : Nat) : String :=
  pdf_path ++ "_" ++ mtimeStr ++ "_" ++ natStr page_num

theorem string_eq_of_data_eq {s t : String} (h : s.data = t.data) : s = t :=
  String.ext h

theorem cache_key_data (p m : String) (n : Nat) :
    (cache_key p m n).data = (p.data ++ '_' :: m.data) ++ '_' :: natChars n := by
  simp [cache_key, natStr, List.append_assoc]

/-- C3: two (path, mtime, pageIndex) triples that differ in at least one
component derive different cache-key strings (line 91).  The hypothesis
that the rendered mtime contains no underscore is satisfied by Python's
rendering of any float.  The key string itself is injective outright, so
the claim's hash-collision allowance is not even needed. -/
theorem cache_key_distinct (p1 m1 : String) (n1 : Nat) (p2 m2 : String) (n2 : Nat)
    (hm1 : '_' ∉ m1.data) (hm2 : '_' ∉ m2.data)
    (hne : ¬ (p1 = p2 ∧ m1 = m2 ∧ n1 = n2)) :
    cache_key p1 m1 n1 ≠ cache_key p2 m2 n2 := by
  intro h
  apply hne
  have hd := congrArg String.data h
  rw [cache_key_data, cache_key_data] at hd
  obtain ⟨h1, h2⟩ := split_last_sep (natChars_no_underscore n1) (natChars_no_underscore n2) hd
  obtain ⟨h3, h4⟩ := split_last_sep hm1 hm2 h1
  exact ⟨string_eq_of_data_eq h3, string_eq_of_data_eq h4, natChars_injective n1 n2 h2⟩

theorem cache_key_distinct_witness :
    ('_' ∉ ("1696112345.25" : String).data)
    ∧ ('_' ∉ ("1696112345.25" : String).data)
    ∧ (¬ (("a" : String) = "b" ∧ ("1696112345.25" : String) = "1696112345.25"
          ∧ (0 : Nat) = 0))
    ∧ cache_key "a" "1696112345.25" 0 ≠ cache_key "b" "1696112345.25" 0 :=
  ⟨by decide, by decide, by decide,
    cache_key_distinct "a" "1696112345.25" 0 "b" "1696112345.25" 0
      (by decide) (by decide) (by decide)⟩

/-- Python's `str.rstrip()` (line 95): remove trailing whitespace. -/
def pyRstrip (l : List Char) : List Char :=
  (l.reverse.dropWhile Char.isWhitespace).reverse

/-- The character filter of line 95: keep a character iff it is
alphanumeric or one of hyphen, underscore. -/
def keepSafe (c : Char) : Bool := c.isAlphanum || c == '-' || c == '_'

/-- Line 95: `safe_filename = "".join(c for c in pdf_filename if
c.isalnum() or c in ('-', '_')).rstrip()` applied to the path stem. -/
def safe_filename (stem : String) : String :=
  ⟨pyRstrip (stem.data.filter keepSafe)⟩

/-- Line 92: `hash_name = hashlib.md5(cache_key.encode()).hexdigest()[:12]`.
The md5 hex digest itself is kept abstract (a 32-character hex string);
the embedding captures the truncation to its first 12 characters. -/
def hash_name (hexdigest : String) : String := ⟨hexdigest.data.take 12⟩

/-- Line 96: `cache_filename = f"{safe_filename}_{hash_name}_p{page_num}.png"`. -/
def cache_filename (stem hexdigest : String) (page_num : Nat) : String :=
  safe_filename stem ++ "_" ++ hash_name hexdigest ++ "_p" ++ natStr page_num ++ ".png"

/-- C4 counterexample: on any md5 hex digest (32 hex characters, shown
here at an explicit one), the truncation kept by `hash_name` is 12 hex
characters, i.e. 48 bits of the digest — not the `at least 96 bits` the
claim asserts. -/
theorem cache_filename_hash_bits_counterexample :
    ("0123456789abcdef0123456789abcdef" : String).length = 32
    ∧ 4 * (hash_name "0123456789abcdef0123456789abcdef").length = 48
    ∧ ¬ (96 ≤ 4 * (hash_name "0123456789abcdef0123456789abcdef").length) := by
  decide

/-- C4 amended: for a stat-succeeding input the rendered cache filename
is `<sanitized stem>_<hash>_p<pageIndex>.png`, where the sanitized stem
contains only alphanumeric, hyphen and underscore characters and the
hash component is the first 12 hex characters (48 bits) of the md5
digest of the cache key — not a 96-bit-or-wider truncation. -/
theorem cache_filename_amended (stem hexdigest : String) (page_num : Nat)
    (hd : hexdigest.length = 32) :
    (∀ c ∈ (safe_filename stem).data, c.isAlphanum = true ∨ c = '-' ∨ c = '_')
    ∧ (hash_name hexdigest).length = 12
    ∧ cache_filename stem hexdigest page_num =
        safe_filename stem ++ "_" ++ hash_name hexdigest ++ "_p"
          ++ natStr page_num ++ ".png" := by
  refine ⟨?_, ?_, rfl⟩
  · intro c hc
    have hmem : c ∈ stem.data.filter keepSafe := by
      have h1 : c ∈ (stem.data.filter keepSafe).reverse.dropWhile Char.isWhitespace := by
        simpa [safe_filename, pyRstrip, List.mem_reverse] using hc
      exact List.mem_reverse.mp ((List.dropWhile_sublist Char.isWhitespace).subset h1)
    have hkeep : keepSafe c = true := List.of_mem_filter hmem
    simp only [keepSafe, Bool.or_eq_true, beq_iff_eq] at hkeep
    tauto
  · have hlen : hexdigest.data.length = 32 := hd
    simp [hash_name, String.length, List.length_take, hlen]

theorem cache_filename_amended_witness :
    (("0123456789abcdef0123456789abcdef" : String).length = 32)
    ∧ ((∀ c ∈ (safe_filename "My Doc 2024!").data,
          c.isAlphanum = true ∨ c = '-' ∨ c = '_')
      ∧ (hash_name "0123456789abcdef0123456789abcdef").length = 12
      ∧ cache_filename "My Doc 2024!" "0123456789abcdef0123456789abcdef" 7 =
          safe_filename "My Doc 2024!" ++ "_"
            ++ hash_name "0123456789abcdef0123456789abcdef" ++ "_p"
            ++ natStr 7 ++ ".png") :=
  ⟨by decide,
    cache_filename_amended "My Doc 2024!" "0123456789abcdef0123456789abcdef" 7 (by decide)⟩

/-! ### `ThumbnailWorker.generate_thumbnail` (src/main.py lines 52-85) -/

/-- An in-memory image, abstracted to what the claims observe: whether
it is the light-gray placeholder, or a rasterized document page, and its
pixel dimensions. -/
inductive Img where
  | placeholder (width height : Nat)
  | rendered (pageIdx : Nat) (width height : Nat)
deriving DecidableEq

/-- The on-disk state of the derived cache file when `generate_thumbnail`
runs: not present, present but undecodable, or present and decodable to
an image. -/
inductive CacheFile where
  | missing
  | corrupt
  | ok (img : Img)
deriving DecidableEq

/-- Lines 56-61: if the cache file exists, try to decode it
(`Image.open`); a decode failure is swallowed (`except: pass`) and falls
through to regeneration, so it behaves exactly like an absent file. -/
def cacheLookup : CacheFile → Option Img
  | .missing => none
  | .corrupt => none
  | .ok img => some img

/-- Lines 66-67: `if page_num >= len(doc): page_num = min(len(doc) - 1, 0)`.
The result is an integer because for a zero-page document the expression
yields `-1`. -/
def clamp_page (pageCount page_num : Nat) : Int :=
  if page_num ≥ pageCount then min ((pageCount : Int) - 1) 0 else (page_num : Int)

/-- Index resolution of `doc[p]` (line 69) in PyMuPDF: a nonnegative
index must be below the page count, a negative index counts from the
end; anything else raises, which the embedding reports as `none`. -/
def resolve_index (pageCount : Nat) (p : Int) : Option Nat :=
  if 0 ≤ p ∧ p < (pageCount : Int) then some p.toNat
  else if -(pageCount : Int) ≤ p ∧ p < 0 then some ((pageCount : Int) + p).toNat
  else none

/-- Lines 106-108: `Image.new('RGB', self.thumbnail_size, color='lightgray')`
— a placeholder of exactly the configured thumbnail size. -/
def create_placeholder_thumbnail (thumbnail_size : Nat × Nat) : Img :=
  Img.placeholder thumbnail_size.1 thumbnail_size.2

/-- Lines 52-85.  `openResult` is the outcome of `fitz.open` (`none` if
it raises, otherwise the page count); `renderPage` is the rasterize /
downscale / save pipeline of lines 70-78 for a successfully resolved
page index (`none` if any of it raises).  Every exception path of the
source lands in the `except` clause of line 80 and produces the
placeholder, so the embedding is a total function. -/
def generate_thumbnail (thumbnail_size : Nat × Nat) (cache : CacheFile)
    (openResult : Option Nat) (renderPage : Nat → Option Img) (page_num : Nat) : Img :=
  match cacheLookup cache with
  | some img => img
  | none =>
    match openResult with
    | none => create_placeholder_thumbnail thumbnail_size
    | some pageCount =>
      match resolve_index pageCount (clamp_page pageCount page_num) with
      | none => create_placeholder_thumbnail thumbnail_size
      | some idx =>
        match renderPage idx with
        | some img => img
        | none => create_placeholder_thumbnail thumbnail_size

/-- C1 (code bug): for a 3-page document and requested page 5, the clamp
of lines 66-67 computes `min(3 - 1, 0) = 0`, so `generate_thumbnail`
renders page 0 — the first page — although the comment on line 67 and
the spec scenario promise the last valid page, index 2. -/
theorem generate_thumbnail_renders_first_not_last :
    clamp_page 3 5 = 0
    ∧ generate_thumbnail (100, 140) CacheFile.missing (some 3)
        (fun idx => some (Img.rendered idx 50 70)) 5 = Img.rendered 0 50 70
    ∧ Img.rendered 0 50 70 ≠ Img.rendered 2 50 70 := by
  refine ⟨by decide, rfl, by decide⟩

/-- C5: when the cache lookup misses and the document either fails to
open (`openResult = none`, e.g. a non-existent path) or has zero pages,
`generate_thumbnail` returns the placeholder whose dimensions are
exactly the requested thumbnail size; the embedding is a total function,
matching the source's catch-all `except` (line 80) that never lets an
exception reach the caller. -/
theorem generate_thumbnail_placeholder (thumbnail_size : Nat × Nat)
    (cache : CacheFile) (openResult : Option Nat)
    (renderPage : Nat → Option Img) (page_num : Nat)
    (hmiss : cacheLookup cache = none)
    (hbad : openResult = none ∨ openResult = some 0) :
    generate_thumbnail thumbnail_size cache openResult renderPage page_num =
      Img.placeholder thumbnail_size.1 thumbnail_size.2 := by
  cases cache with
  | ok img => simp [cacheLookup] at hmiss
  | missing =>
    rcases hbad with rfl | rfl
    · rfl
    · have h0 : clamp_page 0 page_num = -1 := by
        simp [clamp_page, Nat.zero_le]
      simp [generate_thumbnail, cacheLookup, h0, resolve_index,
        create_placeholder_thumbnail]
  | corrupt =>
    rcases hbad with rfl | rfl
    · rfl
    · have h0 : clamp_page 0 page_num = -1 := by
        simp [clamp_page, Nat.zero_le]
      simp [generate_thumbnail, cacheLookup, h0, resolve_index,
        create_placeholder_thumbnail]

theorem generate_thumbnail_placeholder_witness :
    (cacheLookup CacheFile.missing = none)
    ∧ ((Option.none : Option Nat) = none ∨ (Option.none : Option Nat) = some 0)
    ∧ generate_thumbnail (100, 140) CacheFile.missing none (fun _ => none) 0 =
        Img.placeholder 100 140 :=
  ⟨rfl, Or.inl rfl,
    generate_thumbnail_placeholder (100, 140) CacheFile.missing none
      (fun _ => none) 0 rfl (Or.inl rfl)⟩

/-- C8: a cache file that exists but fails to decode is reported as a
miss by the lookup of lines 56-61 (`except: pass`), and
`generate_thumbnail` then behaves exactly as if the file were absent —
it regenerates, and (being a total function, like the source whose
`except` clauses swallow every error) never raises to the caller. -/
theorem corrupt_cache_is_miss_and_regenerates :
    cacheLookup CacheFile.corrupt = none
    ∧ ∀ (thumbnail_size : Nat × Nat) (openResult : Option Nat)
        (renderPage : Nat → Option Img) (page_num : Nat),
        generate_thumbnail thumbnail_size CacheFile.corrupt openResult renderPage page_num =
          generate_thumbnail thumbnail_size CacheFile.missing openResult renderPage page_num :=
  ⟨rfl, fun _ _ _ _ => rfl⟩

/-! ### `ThumbnailWorker.run` / `stop` (src/main.py lines 40-50, 110-112) -/

/-- A signal emitted by the worker: `thumbnail_ready.emit(path, image)`
or `progress_updated.emit(pct)`. -/
inductive Event where
  | ready (pdf_path : String) (img : Img)
  | progress (pct : Nat)
deriving DecidableEq

/-- `os.path.join(self.folder_path, pdf_file)` (line 47) for a relative
file name. -/
def joinPath (folder pdf_file : String) : String := folder ++ "/" ++ pdf_file

/-- The loop of lines 43-50.  `stopFlag i` is the value of
`not self.is_running` observed by the check on line 44 before file `i`
(the flag is written only by `stop()` on another thread, so the sequence
of observed values is data of the embedding); `gen` is
`generate_thumbnail` applied to the joined path; `total` is
`len(self.pdf_files)` computed on line 42; progress is the exact-
arithmetic value of `int((i + 1) / total * 100)`. -/
def runFrom (folder : String) (stopFlag : Nat → Bool) (gen : String → Img)
    (total : Nat) : Nat → List String → List Event
  | _, [] => []
  | i, pdf_file :: rest =>
    if stopFlag i then []
    else
      Event.ready (joinPath folder pdf_file) (gen (joinPath folder pdf_file)) ::
      Event.progress ((i + 1) * 100 / total) ::
      runFrom folder stopFlag gen total (i + 1) rest

/-- `ThumbnailWorker.run` (lines 40-50). -/
def run (folder : String) (stopFlag : Nat → Bool) (gen : String → Img)
    (pdf_files : List String) : List Event :=
  runFrom folder stopFlag gen pdf_files.length 0 pdf_files

/-- The ready-events of an emitted sequence, in order. -/
def readyList (events : List Event) : List (String × Img) :=
  events.filterMap fun e =>
    match e with
    | .ready p img => some (p, img)
    | .progress _ => none

/-- The progress percentages of an emitted sequence, in order. -/
def progressValues (events : List Event) : List Nat :=
  events.filterMap fun e =>
    match e with
    | .ready _ _ => none
    | .progress v => some v

theorem readyList_cons_ready (p : String) (img : Img) (es : List Event) :
    readyList (Event.ready p img :: es) = (p, img) :: readyList es := rfl

theorem readyList_cons_progress (v : Nat) (es : List Event) :
    readyList (Event.progress v :: es) = readyList es := rfl

theorem readyList_runFrom (folder : String) (gen : String → Img) (total : Nat) :
    ∀ (l : List String) (i : Nat),
      readyList (runFrom folder (fun _ => false) gen total i l) =
        l.map fun f => (joinPath folder f, gen (joinPath folder f)) := by
  intro l
  induction l with
  | nil => intro i; rfl
  | cons f rest ih =>
    intro i
    simp only [runFrom, if_neg (by simp : ¬ false = true),
      readyList_cons_ready, readyList_cons_progress, List.map_cons]
    rw [ih]

theorem runFrom_cons_of_flag_false (folder : String) (s : Nat → Bool)
    (gen : String → Img) (total i : Nat) (f : String) (rest : List String)
    (h : s i = false) :
    runFrom folder s gen total i (f :: rest) =
      Event.ready (joinPath folder f) (gen (joinPath folder f)) ::
      Event.progress ((i + 1) * 100 / total) ::
      runFrom folder s gen total (i + 1) rest := by
  simp [runFrom, h]

theorem runFrom_cons_of_flag_true (folder : String) (s : Nat → Bool)
    (gen : String → Img) (total i : Nat) (f : String) (rest : List String)
    (h : s i = true) :
    runFrom folder s gen total i (f :: rest) = [] := by
  simp [runFrom, h]

theorem runFrom_stopped (folder : String) (s : Nat → Bool) (gen : String → Img)
    (total : Nat) :
    ∀ (k i : Nat) (l : List String), k ≤ l.length →
      (∀ j, j < k → s (i + j) = false) → s (i + k) = true →
      runFrom folder s gen total i l =
        runFrom folder (fun _ => false) gen total i (l.take k) := by
  intro k
  induction k with
  | zero =>
    intro i l _ _ htrue
    cases l with
    | nil => rfl
    | cons f rest =>
      rw [List.take_zero,
        runFrom_cons_of_flag_true folder s gen total i f rest (by simpa using htrue)]
      rfl
  | succ k' ih =>
    intro i l hk hfalse htrue
    cases l with
    | nil => simp at hk
    | cons f rest =>
      have h0 : s i = false := by simpa using hfalse 0 (Nat.succ_pos k')
      rw [List.take_succ_cons,
        runFrom_cons_of_flag_false folder s gen total i f rest h0,
        runFrom_cons_of_flag_false folder (fun _ => false) gen total i f
          (List.take k' rest) rfl,
        ih (i + 1) rest (by simpa using hk)
          (fun j hj => by
            have hjj := hfalse (j + 1) (by omega)
            have harr : i + 1 + j = i + (j + 1) := by omega
            rw [harr]
            exact hjj)
          (by
            have harr : i + 1 + k' = i + (k' + 1) := by omega
            rw [harr]
            exact htrue)]

/-- C7: the stop flag (set by `stop()`, line 112) is read before each
file (line 44); if it reads false for the first `k` files and true at
the boundary after them, the run behaves exactly like an uncancelled run
over the first `k` files — so the files already completed keep their
ready-events (here `k' = k ≤ k`) and, once the cancellation is
acknowledged at that file boundary, not a single further ready or
progress event is emitted. -/
theorem run_cancelled (folder : String) (s : Nat → Bool) (gen : String → Img)
    (pdf_files : List String) (k : Nat) (hk : k ≤ pdf_files.length)
    (hfalse : ∀ j, j < k → s j = false) (htrue : s k = true) :
    run folder s gen pdf_files =
      runFrom folder (fun _ => false) gen pdf_files.length 0 (pdf_files.take k)
    ∧ readyList (run folder s gen pdf_files) =
        (pdf_files.take k).map (fun f => (joinPath folder f, gen (joinPath folder f)))
    ∧ (readyList (run folder s gen pdf_files)).length = k := by
  have hmain : run folder s gen pdf_files =
      runFrom folder (fun _ => false) gen pdf_files.length 0 (pdf_files.take k) :=
    runFrom_stopped folder s gen pdf_files.length k 0 pdf_files hk
      (fun j hj => by simpa using hfalse j hj) (by simpa using htrue)
  refine ⟨hmain, ?_, ?_⟩
  · rw [hmain, readyList_runFrom]
  · rw [hmain, readyList_runFrom, List.length_map, List.length_take]
    omega

theorem run_cancelled_witness :
    ((1 : Nat) ≤ (["a.pdf", "b.pdf", "c.pdf"] : List String).length)
    ∧ (∀ j, j < 1 → (fun i => decide (1 ≤ i)) j = false)
    ∧ ((fun i => decide (1 ≤ i)) 1 = true)
    ∧ (run "d" (fun i => decide (1 ≤ i)) (fun _ => Img.placeholder 1 1)
          ["a.pdf", "b.pdf", "c.pdf"] =
        runFrom "d" (fun _ => false) (fun _ => Img.placeholder 1 1)
          (["a.pdf", "b.pdf", "c.pdf"] : List String).length 0
          ((["a.pdf", "b.pdf", "c.pdf"] : List String).take 1)
      ∧ readyList (run "d" (fun i => decide (1 ≤ i)) (fun _ => Img.placeholder 1 1)
            ["a.pdf", "b.pdf", "c.pdf"]) =
          ((["a.pdf", "b.pdf", "c.pdf"] : List String).take 1).map
            (fun f => (joinPath "d" f, (fun _ => Img.placeholder 1 1) (joinPath "d" f)))
      ∧ (readyList (run "d" (fun i => decide (1 ≤ i)) (fun _ => Img.placeholder 1 1)
            ["a.pdf", "b.pdf", "c.pdf"])).length = 1) :=
  ⟨by decide, by decide, by decide,
    run_cancelled "d" (fun i => decide (1 ≤ i)) (fun _ => Img.placeholder 1 1)
      ["a.pdf", "b.pdf", "c.pdf"] 1 (by decide) (by decide) (by decide)⟩

/-- C9: on the empty file list the loop body of lines 43-50 never runs:
no ready-event, no progress event, and in particular the division by
`total = 0` inside the progress computation is never reached — the run
terminates normally with an empty event sequence. -/
theorem run_empty_list (folder : String) (stopFlag : Nat → Bool) (gen : String → Img) :
    run folder stopFlag gen [] = []
    ∧ readyList (run folder stopFlag gen []) = []
    ∧ progressValues (run folder stopFlag gen []) = [] :=
  ⟨rfl, rfl, rfl⟩

/-! ### `PDFViewer` (src/main.py lines 114-266) -/

/-- The viewer's mutable state (`__init__`, lines 118-122).  The open
document handle is abstracted to its page count; the zoom float is
modelled as a rational. -/
structure ViewerState where
  selected_pdf : Option String
  current_pdf_doc : Option Nat
  current_page : Int
  total_pages : Nat
  viewer_zoom : ℚ
deriving DecidableEq

/-- `display_pdf` (lines 177-195).  `openResult` is the outcome of
`fitz.open(pdf_path)` on line 181 (`none` when it raises).  Note the
source assigns `self.selected_pdf = pdf_path` on line 180, *before* the
open that can fail; the `except` branch (lines 193-195) then shows a
blocking, dismissable `QMessageBox.critical` dialog — reported here as
the returned Bool — and touches no further field. -/
def display_pdf (st : ViewerState) (pdf_path : String) (openResult : Option Nat) :
    ViewerState × Bool :=
  match openResult with
  | none => ({ st with selected_pdf := some pdf_path }, true)
  | some pageCount =>
      ({ st with
          selected_pdf := some pdf_path,
          current_pdf_doc := some pageCount,
          total_pages := pageCount,
          current_page := min 0 ((pageCount : Int) - 1) }, false)

/-- C2 counterexample: starting from a viewer showing a valid 3-page
document, a failing open of another path does NOT leave `selected_pdf`
unchanged — line 180 has already overwritten it with the failing path
before `fitz.open` raises. -/
theorem display_pdf_failure_changes_selected :
    ¬ ((display_pdf
          { selected_pdf := some "old.pdf", current_pdf_doc := some 3,
            current_page := 0, total_pages := 3, viewer_zoom := 1 }
          "bad.pdf" none).1.selected_pdf = some "old.pdf") := by
  decide

/-- C2 amended: for every viewer state and failing open, `display_pdf`
leaves `current_pdf_doc`, `current_page` and `total_pages` unchanged at
the last-valid document and surfaces the failure as a blocking,
dismissable notification — but `selected_pdf` is updated to the failing
path (line 180 runs before the open). -/
theorem display_pdf_failure_amended (st : ViewerState) (pdf_path : String) :
    (display_pdf st pdf_path none).1.current_pdf_doc = st.current_pdf_doc
    ∧ (display_pdf st pdf_path none).1.current_page = st.current_page
    ∧ (display_pdf st pdf_path none).1.total_pages = st.total_pages
    ∧ (display_pdf st pdf_path none).1.viewer_zoom = st.viewer_zoom
    ∧ (display_pdf st pdf_path none).2 = true
    ∧ (display_pdf st pdf_path none).1.selected_pdf = some pdf_path :=
  ⟨rfl, rfl, rfl, rfl, rfl, rfl⟩

/-! ### Zoom controls (src/main.py lines 121, 250-266) -/

/-- Line 252: `self.viewer_zoom = min(self.viewer_zoom * 1.2, 5.0)`. -/
def zoom_in (z : ℚ) : ℚ := min (z * 1.2) 5.0

/-- Line 258: `self.viewer_zoom = max(self.viewer_zoom / 1.2, 0.1)`. -/
def zoom_out (z : ℚ) : ℚ := max (z / 1.2) 0.1

/-- Line 264: `self.viewer_zoom = 1.0`. -/
def zoom_reset (_z : ℚ) : ℚ := 1.0

inductive ZoomOp where
  | zin
  | zout
  | zreset
deriving DecidableEq

def applyZoom (z : ℚ) : ZoomOp → ℚ
  | .zin => zoom_in z
  | .zout => zoom_out z
  | .zreset => zoom_reset z

theorem zoom_step_bounded {z : ℚ} (h1 : 0.1 ≤ z) (h2 : z ≤ 5.0) (op : ZoomOp) :
    0.1 ≤ applyZoom z op ∧ applyZoom z op ≤ 5.0 := by
  have hz : (0 : ℚ) ≤ z := le_trans (by norm_num) h1
  cases op with
  | zin =>
    constructor
    · apply le_min
      · nlinarith
      · norm_num
    · exact min_le_right _ _
  | zout =>
    constructor
    · exact le_max_right _ _
    · apply max_le
      · have : z / 1.2 ≤ z := div_le_self hz (by norm_num)
        linarith
      · norm_num
  | zreset =>
    constructor <;> norm_num [applyZoom, zoom_reset]

/-- C10: starting from the default zoom factor 1.0 (line 121), any
finite sequence of zoom-in, zoom-out and zoom-reset operations leaves
the zoom factor inside the closed interval [0.1, 5.0]. -/
theorem zoom_bounded (ops : List ZoomOp) :
    0.1 ≤ ops.foldl applyZoom 1.0 ∧ ops.foldl applyZoom 1.0 ≤ 5.0 := by
  suffices h : ∀ (l : List ZoomOp) (z : ℚ), 0.1 ≤ z → z ≤ 5.0 →
      0.1 ≤ l.foldl applyZoom z ∧ l.foldl applyZoom z ≤ 5.0 by
    exact h ops 1.0 (by norm_num) (by norm_num)
  intro l
  induction l with
  | nil => intro z h1 h2; exact ⟨h1, h2⟩
  | cons op rest ih =>
    intro z h1 h2
    obtain ⟨h1', h2'⟩ := zoom_step_bounded h1 h2 op
    exact ih (applyZoom z op) h1' h2'

end PdfLib
